import Mathlib

/-! Shallow embedding of the inventory-tracker core (src/app.js).

Modelling conventions:
* The browser localStorage with its three collections (items, categories,
  withdrawals) is the `Store` record; every operation takes the store and
  returns its result together with the updated store (the JS functions
  perform a load-mutate-save cycle on localStorage).
* JS numbers holding quantities are modelled as `Int` (the values produced
  by `parseInt` on well-formed numeric input) and unit costs as `ℚ`
  (`parseFloat`).  Timestamps (`Date.now()`, `new Date().toISOString()`)
  are milliseconds since the Unix epoch; where the code reads the clock or
  builds an id from it, the value is passed in as a parameter.
* `showNotification` error paths are modelled by explicit result
  constructors (`WithdrawError`, `DeleteCategoryResult`).
* Dates coming from the date-only filter inputs are modelled by their
  calendar-day index (days since 1970-01-01); `new Date("YYYY-MM-DD")`
  is UTC midnight of that day, i.e. `day * msPerDay` milliseconds.
-/

namespace Inventory

/-- An item record, as built by `addItem` in app.js. -/
structure Item where
  id : String
  name : String
  category : String
  quantity : Int
  unitCost : ℚ
  dateAdded : Int
  description : String
  deriving DecidableEq

/-- A withdrawal record, as built by `withdrawItem` in app.js. -/
structure Withdrawal where
  id : String
  itemId : String
  itemName : String
  category : String
  quantity : Int
  unitCost : ℚ
  totalCost : ℚ
  date : Int
  notes : String
  deriving DecidableEq

/-- The three localStorage collections (`STORAGE_KEYS`). -/
structure Store where
  items : List Item
  categories : List String
  withdrawals : List Withdrawal
  deriving DecidableEq

/-- The seed categories (`DEFAULT_CATEGORIES` in app.js). -/
def DEFAULT_CATEGORIES : List String :=
  ["Electronics", "Office Supplies", "Tools", "Uncategorized"]

/-- Models `initializeStorage`: seeds the category collection with the
default categories when it is empty.  (The items/withdrawals branches only
repair a non-array value, which cannot arise in this model.) -/
def initStorage (s : Store) : Store :=
  if s.categories.length = 0 then { s with categories := DEFAULT_CATEGORIES } else s

/-- Input to `addItem`: `quantity`/`unitCost` are the already-parsed values
of `parseInt(itemData.quantity)` / `parseFloat(itemData.unitCost)`;
`description` is optional (`itemData.description || ''`). -/
structure ItemDraft where
  name : String
  category : String
  quantity : Int
  unitCost : ℚ
  description : Option String
  deriving DecidableEq

/-- Models `addItem`: builds the item (the timestamp-derived id and
`dateAdded` are passed as parameters) and appends it to the stored items. -/
def addItem (s : Store) (itemData : ItemDraft) (id : String) (now : Int) :
    Item × Store :=
  let item : Item :=
    { id := id
      name := itemData.name
      category := itemData.category
      quantity := itemData.quantity
      unitCost := itemData.unitCost
      dateAdded := now
      description := itemData.description.getD "" }
  (item, { s with items := s.items ++ [item] })

/-- A patch object passed to `updateItem`.  Optional fields model the keys
the JS object spread `{...items[index], ...updates}` may or may not carry;
`quantity`/`unitCost` are always overwritten afterwards with the re-parsed
values `parseInt(updates.quantity)` / `parseFloat(updates.unitCost)`, so
they are mandatory here. -/
structure ItemPatch where
  id : Option String
  name : Option String
  category : Option String
  quantity : Int
  unitCost : ℚ
  dateAdded : Option Int
  description : Option String
  deriving DecidableEq

/-- The merge `{...items[index], ...updates, quantity: parseInt(...),
unitCost: parseFloat(...)}`: patch fields overwrite the old record, then
quantity and unitCost take the re-parsed values. -/
def applyPatch (old : Item) (p : ItemPatch) : Item :=
  { id := p.id.getD old.id
    name := p.name.getD old.name
    category := p.category.getD old.category
    quantity := p.quantity
    unitCost := p.unitCost
    dateAdded := p.dateAdded.getD old.dateAdded
    description := p.description.getD old.description }

/-- Replace the first element satisfying `p` by its image under `f`; `none`
when no element satisfies `p`.  This models `findIndex` returning `-1` or an
index, followed by assignment at that index. -/
def updateFirst (p : α → Bool) (f : α → α) : List α → Option (List α)
  | [] => none
  | x :: xs => if p x then some (f x :: xs) else (updateFirst p f xs).map (fun ys => x :: ys)

/-- Models `updateItem`. -/
def updateItem (s : Store) (itemId : String) (patch : ItemPatch) : Bool × Store :=
  match updateFirst (fun item => item.id == itemId) (fun item => applyPatch item patch) s.items with
  | none => (false, s)
  | some items2 => (true, { s with items := items2 })

/-- Models `deleteItem`. -/
def deleteItem (s : Store) (itemId : String) : Bool × Store :=
  let filteredItems := s.items.filter (fun item => !(item.id == itemId))
  if filteredItems.length == s.items.length then (false, s)
  else (true, { s with items := filteredItems })

/-- Models `getItem`: `items.find(item => item.id === itemId) || null`. -/
def getItem (s : Store) (itemId : String) : Option Item :=
  s.items.find? (fun item => item.id == itemId)

/-- Models `getAllItems`. -/
def getAllItems (s : Store) : List Item := s.items

/-- JS `String.prototype.toLowerCase` on the ASCII strings this app stores,
where it agrees with lowering each character (written over the character
list so that it evaluates by kernel reduction). -/
def jsToLower (s : String) : String := String.mk (s.data.map Char.toLower)

/-- Models `addCategory`: refuses (returns false, appends nothing) when an
existing entry matches case-insensitively, otherwise appends. -/
def addCategory (s : Store) (categoryName : String) : Bool × Store :=
  if s.categories.any (fun cat => jsToLower cat == jsToLower categoryName) then (false, s)
  else (true, { s with categories := s.categories ++ [categoryName] })

/-- Outcome of `deleteCategory`: the JS function returns a Bool, but the
in-use refusal is additionally signalled by a CategoryInUse notification;
`toBool` recovers the returned Bool. -/
inductive DeleteCategoryResult
  | inUse
  | deleted
  | notFound
  deriving DecidableEq

/-- The Bool actually returned by the JS `deleteCategory`. -/
def DeleteCategoryResult.toBool : DeleteCategoryResult → Bool
  | .deleted => true
  | _ => false

/-- Models `deleteCategory`: the in-use check against the items runs first;
only then is the exact-match removal from the registry attempted. -/
def deleteCategory (s : Store) (categoryName : String) : DeleteCategoryResult × Store :=
  if s.items.any (fun item => item.category == categoryName) then
    (.inUse, s)
  else
    let filteredCategories := s.categories.filter (fun cat => !(cat == categoryName))
    if filteredCategories.length == s.categories.length then (.notFound, s)
    else (.deleted, { s with categories := filteredCategories })

/-- Models `getAllCategories`.  (The `DEFAULT_CATEGORIES` fallback in the JS
applies only when the storage key is absent, which `initializeStorage`
precludes; in this model the collection is always present.) -/
def getAllCategories (s : Store) : List String := s.categories

/-- Input to `withdrawItem`: `quantity` is the already-parsed value of
`parseInt(withdrawalData.quantity)`; `notes` is `withdrawalData.notes || ''`. -/
structure WithdrawalDraft where
  itemId : String
  quantity : Int
  notes : Option String
  deriving DecidableEq

/-- The two error notifications `withdrawItem` can emit before returning
null; the insufficient-stock message carries the available quantity. -/
inductive WithdrawError
  | itemNotFound
  | insufficientStock (available : Int)
  deriving DecidableEq

/-- Models `withdrawItem`: resolve the item, check stock, append the
withdrawal record, then decrement the item quantity through `updateItem`
with the spread patch `{...item, quantity: item.quantity - quantity}` (all
item fields present; `parseInt`/`parseFloat` are identities on these
already-numeric values). -/
def withdrawItem (s : Store) (d : WithdrawalDraft) (wid : String) (now : Int) :
    Except WithdrawError Withdrawal × Store :=
  match getItem s d.itemId with
  | none => (.error .itemNotFound, s)
  | some item =>
    if d.quantity > item.quantity then
      (.error (.insufficientStock item.quantity), s)
    else
      let totalCost : ℚ := (d.quantity : ℚ) * item.unitCost
      let w : Withdrawal :=
        { id := wid
          itemId := item.id
          itemName := item.name
          category := item.category
          quantity := d.quantity
          unitCost := item.unitCost
          totalCost := totalCost
          date := now
          notes := d.notes.getD "" }
      let s1 : Store := { s with withdrawals := s.withdrawals ++ [w] }
      let s2 := (updateItem s1 item.id
        { id := some item.id
          name := some item.name
          category := some item.category
          quantity := item.quantity - d.quantity
          unitCost := item.unitCost
          dateAdded := some item.dateAdded
          description := some item.description }).2
      (.ok w, s2)

/-- Models `getAllWithdrawals`. -/
def getAllWithdrawals (s : Store) : List Withdrawal := s.withdrawals

/-- Milliseconds per day. -/
def msPerDay : Int := 86400000

/-- `new Date('1970-01-01')`.getTime(): the Unix epoch. -/
def epochMs : Int := 0

/-- `new Date('2100-12-31')`.getTime(): 47846 days after the epoch. -/
def farFutureMs : Int := 4133894400000

/-- `end.setHours(23, 59, 59, 999)`: move the instant to 23:59:59.999 of
its (UTC-modelled) calendar day. -/
def setEndOfDay (t : Int) : Int := t / msPerDay * msPerDay + 86399999

/-- Models `getWithdrawalsByDateRange`.  `startDay`/`endDay` are the parsed
calendar days (days since the epoch) of the date-only strings coming from
the filter form; `new Date(str)` for a date-only string is UTC midnight of
that day, i.e. `day * msPerDay`. -/
def getWithdrawalsByDateRange (s : Store) (startDay endDay : Option Int) : List Withdrawal :=
  (getAllWithdrawals s).filter fun w =>
    let start : Int := match startDay with | some d2 => d2 * msPerDay | none => epochMs
    let endBase : Int := match endDay with | some d2 => d2 * msPerDay | none => farFutureMs
    let endMs : Int := setEndOfDay endBase
    decide (start ≤ w.date) && decide (w.date ≤ endMs)

/-- Models `getWithdrawalsByCategory`. -/
def getWithdrawalsByCategory (s : Store) (category : String) : List Withdrawal :=
  (getAllWithdrawals s).filter fun w => w.category == category

/-- The statistics computed by `renderStatistics` in its non-empty branch. -/
structure Stats where
  totalWithdrawals : Nat
  totalCost : ℚ
  totalQuantity : Int
  avgCost : ℚ
  mostWithdrawn : Option (String × Int)
  deriving DecidableEq

/-- One step of the `itemCounts` accumulation:
`itemCounts[w.itemName] = (itemCounts[w.itemName] || 0) + w.quantity`,
with object keys kept in first-insertion order. -/
def bumpCount (counts : List (String × Int)) (name : String) (q : Int) :
    List (String × Int) :=
  match counts with
  | [] => [(name, q)]
  | (n, c) :: rest => if n == name then (n, c + q) :: rest else (n, c) :: bumpCount rest name q

/-- The `itemCounts` object built by the `withdrawals.forEach` loop. -/
def itemCounts (ws : List Withdrawal) : List (String × Int) :=
  ws.foldl (fun acc w => bumpCount acc w.itemName w.quantity) []

/-- `Object.entries(itemCounts).sort((a, b) => b[1] - a[1])[0]`: the stable
sort descending by count followed by taking index 0 yields the
first-encountered entry of maximal count. -/
def mostWithdrawnEntry (ws : List Withdrawal) : Option (String × Int) :=
  (itemCounts ws).foldl
    (fun best e =>
      match best with
      | none => some e
      | some b => if e.2 > b.2 then some e else some b)
    none

/-- Models `renderStatistics` as the pure summary it renders; `none` is the
early-returned no-data branch (the message shown when the filtered
withdrawal list is empty). -/
def renderStatistics (withdrawals : List Withdrawal) : Option Stats :=
  if withdrawals.length = 0 then none
  else
    let totalWithdrawals := withdrawals.length
    let totalCost : ℚ := withdrawals.foldl (fun sum w => sum + w.totalCost) 0
    let totalQuantity : Int := withdrawals.foldl (fun sum w => sum + w.quantity) 0
    some
      { totalWithdrawals := totalWithdrawals
        totalCost := totalCost
        totalQuantity := totalQuantity
        avgCost := totalCost / (totalWithdrawals : ℚ)
        mostWithdrawn := mostWithdrawnEntry withdrawals }

/-- The item-quantity invariant of the spec: every stored item has a
non-negative quantity. -/
def itemsNonneg (s : Store) : Prop := ∀ item ∈ s.items, 0 ≤ item.quantity

/-- The category invariant of the spec: no two registry entries are equal
ignoring case. -/
def ciDistinct (l : List String) : Prop := (l.map jsToLower).Nodup

instance (s : Store) : Decidable (itemsNonneg s) := by
  unfold itemsNonneg
  infer_instance

instance (l : List String) : Decidable (ciDistinct l) := by
  unfold ciDistinct
  exact List.nodupDecidable _

/-! Concrete sample data used by the claim witnesses and
counterexamples below, and named components of the withdraw transaction. -/

/-- The withdrawal record built in the success branch of `withdrawItem`. -/
def withdrawRecord (d : WithdrawalDraft) (item : Item) (wid : String) (now : Int) :
    Withdrawal :=
  { id := wid
    itemId := item.id
    itemName := item.name
    category := item.category
    quantity := d.quantity
    unitCost := item.unitCost
    totalCost := (d.quantity : ℚ) * item.unitCost
    date := now
    notes := d.notes.getD "" }

/-- The patch `{...item, quantity: item.quantity - quantity}` that the
success branch of `withdrawItem` passes to `updateItem`. -/
def withdrawPatch (d : WithdrawalDraft) (item : Item) : ItemPatch :=
  { id := some item.id
    name := some item.name
    category := some item.category
    quantity := item.quantity - d.quantity
    unitCost := item.unitCost
    dateAdded := some item.dateAdded
    description := some item.description }

/-- Concrete item for the C1 witness. -/
def C1item : Item :=
  { id := "item_1", name := "Widget", category := "Tools",
    quantity := 10, unitCost := 5/2, dateAdded := 0, description := "" }

/-- Concrete store for the C1 witness. -/
def C1store : Store :=
  { items := [C1item], categories := ["Tools"], withdrawals := [] }

/-- Concrete withdrawal request for the C1 witness. -/
def C1draft : WithdrawalDraft := { itemId := "item_1", quantity := 3, notes := none }

/-- Concrete item for the C2 witness. -/
def C2item : Item :=
  { id := "item_2", name := "Widget", category := "Tools",
    quantity := 7, unitCost := 5/2, dateAdded := 0, description := "" }

/-- Concrete store for the C2 witness. -/
def C2store : Store :=
  { items := [C2item], categories := ["Tools"], withdrawals := [] }

/-- Concrete withdrawal request for the C2 witness. -/
def C2draft : WithdrawalDraft := { itemId := "item_2", quantity := 8, notes := none }

/-- Concrete item for the C3 counterexample. -/
def C3item : Item :=
  { id := "item_3", name := "Widget", category := "Tools",
    quantity := 5, unitCost := 2, dateAdded := 0, description := "" }

/-- Concrete store for the C3 counterexample. -/
def C3store : Store :=
  { items := [C3item], categories := ["Tools"], withdrawals := [] }

/-- A withdrawal request whose quantity parses to 0. -/
def C3draft : WithdrawalDraft := { itemId := "item_3", quantity := 0, notes := none }

/-- A withdrawal request whose quantity parses to -2. -/
def C3negDraft : WithdrawalDraft := { itemId := "item_3", quantity := -2, notes := none }

/-- An item draft whose quantity input parses to -5. -/
def C4draft : ItemDraft :=
  { name := "Widget", category := "Tools", quantity := -5, unitCost := 2,
    description := none }

/-- An empty store for the C4 counterexample. -/
def C4empty : Store := { items := [], categories := ["Tools"], withdrawals := [] }

/-- Concrete item for the C4 witness. -/
def C4item : Item :=
  { id := "item_4b", name := "Widget", category := "Tools",
    quantity := 4, unitCost := 1, dateAdded := 0, description := "" }

/-- Concrete store for the C4 witness. -/
def C4store : Store :=
  { items := [C4item], categories := ["Tools"], withdrawals := [] }

/-- Concrete item for the C5 witness. -/
def C5item : Item :=
  { id := "item_5", name := "Drill", category := "Tools",
    quantity := 1, unitCost := 1, dateAdded := 0, description := "" }

/-- Concrete store for the C5 witness. -/
def C5store : Store :=
  { items := [C5item], categories := ["Tools", "Office Supplies"], withdrawals := [] }

/-- Concrete item for the C10 witness: its category is not in the registry. -/
def C10item : Item :=
  { id := "item_10", name := "Lamp", category := "Ghost",
    quantity := 1, unitCost := 1, dateAdded := 0, description := "" }

/-- Concrete store for the C10 witness. -/
def C10store : Store :=
  { items := [C10item], categories := ["Tools"], withdrawals := [] }

/-- Concrete store for the C6 witness. -/
def C6store : Store :=
  { items := [], categories := ["Tools", "office supplies"], withdrawals := [] }

/-- Concrete withdrawal for the C7 witness, dated exactly at midnight of
day 10 after the epoch. -/
def C7w : Withdrawal :=
  { id := "w_7", itemId := "item_7", itemName := "Widget", category := "Tools",
    quantity := 1, unitCost := 1, totalCost := 1, date := 864000000, notes := "" }

/-- Concrete store for the C7 witness. -/
def C7store : Store := { items := [], categories := [], withdrawals := [C7w] }

/-- Concrete withdrawal for the C8 witness. -/
def C8w : Withdrawal :=
  { id := "w_8", itemId := "item_8", itemName := "Widget", category := "Tools",
    quantity := 3, unitCost := 2, totalCost := 6, date := 0, notes := "" }

/-- Concrete item for the C9 witness. -/
def C9item : Item :=
  { id := "item_9", name := "Widget", category := "Tools",
    quantity := 4, unitCost := 1, dateAdded := 7, description := "old" }

/-- Concrete store for the C9 witness. -/
def C9store : Store :=
  { items := [C9item], categories := ["Tools"], withdrawals := [] }

/-- A concrete patch that renames the item and re-parses quantity and cost
but carries no id, dateAdded, category or description. -/
def C9patch : ItemPatch :=
  { id := none, name := some "Gadget", category := none, quantity := 9,
    unitCost := 3, dateAdded := none, description := none }

/-! Helper lemmas about `updateFirst` and `List.find?`. -/

theorem updateFirst_eq_none {α : Type} {p : α → Bool} {f : α → α} :
    ∀ {l : List α}, l.find? p = none → updateFirst p f l = none
  | [], _ => rfl
  | x :: xs, h => by
    by_cases hx : p x = true
    · rw [List.find?_cons_of_pos _ hx] at h
      exact absurd h (by simp)
    · rw [List.find?_cons_of_neg _ hx] at h
      have hx' : p x = false := by simpa using hx
      simp [updateFirst, hx', updateFirst_eq_none h]

theorem find?_some_decomp {α : Type} {p : α → Bool} (f : α → α) :
    ∀ {l : List α} {a : α}, l.find? p = some a →
      ∃ l1 l2, l = l1 ++ a :: l2 ∧ (∀ x ∈ l1, p x = false) ∧
        updateFirst p f l = some (l1 ++ f a :: l2) := by
  intro l
  induction l with
  | nil => intro a h; simp [List.find?] at h
  | cons x xs ih =>
    intro a h
    by_cases hx : p x = true
    · rw [List.find?_cons_of_pos _ hx] at h
      obtain rfl : x = a := by injection h
      exact ⟨[], xs, by simp, by simp, by simp [updateFirst, hx]⟩
    · rw [List.find?_cons_of_neg _ hx] at h
      have hx' : p x = false := by simpa using hx
      obtain ⟨l1, l2, rfl, hl1, hu⟩ := ih h
      refine ⟨x :: l1, l2, by simp, ?_, by simp [updateFirst, hx', hu]⟩
      intro y hy
      rcases List.mem_cons.mp hy with rfl | hy
      · exact hx'
      · exact hl1 y hy

theorem find?_append_first {α : Type} {p : α → Bool} {b : α} :
    ∀ {l1 : List α} (l2 : List α), (∀ x ∈ l1, p x = false) → p b = true →
      (l1 ++ b :: l2).find? p = some b
  | [], l2, _, hb => by simp [List.find?_cons_of_pos _ hb]
  | x :: l1, l2, h1, hb => by
    have hx : p x = false := h1 x (by simp)
    rw [List.cons_append, List.find?_cons_of_neg _ (by simp [hx])]
    exact find?_append_first l2 (fun y hy => h1 y (by simp [hy])) hb

theorem updateItem_withdrawals (s : Store) (itemId : String) (patch : ItemPatch) :
    ((updateItem s itemId patch).2).withdrawals = s.withdrawals := by
  unfold updateItem
  cases updateFirst (fun item => item.id == itemId) (fun item => applyPatch item patch) s.items with
  | none => rfl
  | some items2 => rfl

theorem updateItem_categories (s : Store) (itemId : String) (patch : ItemPatch) :
    ((updateItem s itemId patch).2).categories = s.categories := by
  unfold updateItem
  cases updateFirst (fun item => item.id == itemId) (fun item => applyPatch item patch) s.items with
  | none => rfl
  | some items2 => rfl

theorem getItem_updateItem_self (s : Store) (itemId : String) (patch : ItemPatch)
    (item : Item) (hfind : getItem s itemId = some item)
    (hid : (applyPatch item patch).id = itemId) :
    updateItem s itemId patch =
      (true, (updateItem s itemId patch).2) ∧
    getItem ((updateItem s itemId patch).2) itemId = some (applyPatch item patch) := by
  obtain ⟨l1, l2, hl, hl1, hu⟩ :=
    find?_some_decomp (fun i => applyPatch i patch) (l := s.items) (a := item) hfind
  have hstep : updateItem s itemId patch =
      (true, { s with items := l1 ++ applyPatch item patch :: l2 }) := by
    unfold updateItem
    rw [hu]
  refine ⟨by rw [hstep], ?_⟩
  rw [hstep]
  unfold getItem
  exact find?_append_first l2 hl1 (by simp [hid])

theorem withdrawItem_ok_eq (s : Store) (d : WithdrawalDraft) (item : Item)
    (wid : String) (now : Int) (hget : getItem s d.itemId = some item)
    (hle : d.quantity ≤ item.quantity) :
    withdrawItem s d wid now =
      (Except.ok (withdrawRecord d item wid now),
       (updateItem { s with withdrawals := s.withdrawals ++ [withdrawRecord d item wid now] }
          item.id (withdrawPatch d item)).2) := by
  have hnotgt : ¬ d.quantity > item.quantity := not_lt.mpr hle
  simp only [withdrawItem, hget]
  rw [if_neg hnotgt]
  rfl

theorem getItem_id_eq (s : Store) (itemId : String) (item : Item)
    (hget : getItem s itemId = some item) : item.id = itemId := by
  have hfind : s.items.find? (fun i => i.id == itemId) = some item := hget
  have := List.find?_some hfind
  simpa using this

theorem withdrawItem_success (s : Store) (d : WithdrawalDraft) (item : Item)
    (wid : String) (now : Int) (hget : getItem s d.itemId = some item)
    (hle : d.quantity ≤ item.quantity) :
    ∃ w : Withdrawal,
      (withdrawItem s d wid now).1 = Except.ok w ∧
      w.quantity = d.quantity ∧
      w.unitCost = item.unitCost ∧
      w.totalCost = (d.quantity : ℚ) * item.unitCost ∧
      ((withdrawItem s d wid now).2).withdrawals = s.withdrawals ++ [w] ∧
      (getItem ((withdrawItem s d wid now).2) d.itemId).map Item.quantity =
        some (item.quantity - d.quantity) ∧
      ((withdrawItem s d wid now).2).categories = s.categories := by
  have hid : item.id = d.itemId := getItem_id_eq s d.itemId item hget
  rw [withdrawItem_ok_eq s d item wid now hget hle]
  refine ⟨withdrawRecord d item wid now, rfl, rfl, rfl, rfl, ?_, ?_, ?_⟩
  · rw [updateItem_withdrawals]
  · rw [hid]
    have h2 := (getItem_updateItem_self
        { s with withdrawals := s.withdrawals ++ [withdrawRecord d item wid now] }
        d.itemId (withdrawPatch d item) item hget
        (by simp [applyPatch, withdrawPatch, hid])).2
    rw [h2]
    rfl
  · rw [updateItem_categories]

theorem withdrawItem_notFound_eq (s : Store) (d : WithdrawalDraft)
    (wid : String) (now : Int) (hget : getItem s d.itemId = none) :
    withdrawItem s d wid now = (Except.error WithdrawError.itemNotFound, s) := by
  simp only [withdrawItem, hget]

theorem withdrawItem_insufficient_eq (s : Store) (d : WithdrawalDraft) (item : Item)
    (wid : String) (now : Int) (hget : getItem s d.itemId = some item)
    (hgt : item.quantity < d.quantity) :
    withdrawItem s d wid now =
      (Except.error (WithdrawError.insufficientStock item.quantity), s) := by
  simp only [withdrawItem, hget]
  rw [if_pos hgt]

theorem updateFirst_mem {α : Type} {p : α → Bool} {f : α → α} :
    ∀ {l l2 : List α}, updateFirst p f l = some l2 →
      ∀ y ∈ l2, y ∈ l ∨ ∃ x ∈ l, y = f x
  | [], _, h => by simp [updateFirst] at h
  | x :: xs, l2, h => by
    by_cases hx : p x = true
    · simp only [updateFirst, hx, if_true, Option.some.injEq] at h
      subst h
      intro y hy
      rcases List.mem_cons.mp hy with rfl | hy
      · exact Or.inr ⟨x, by simp, rfl⟩
      · exact Or.inl (by simp [hy])
    · have hx' : p x = false := by simpa using hx
      simp only [updateFirst, hx', if_false, Option.map_eq_some', Bool.false_eq_true] at h
      obtain ⟨ys, hys, rfl⟩ := h
      intro y hy
      rcases List.mem_cons.mp hy with rfl | hy
      · exact Or.inl (by simp)
      · rcases updateFirst_mem hys y hy with h1 | ⟨z, hz, rfl⟩
        · exact Or.inl (by simp [h1])
        · exact Or.inr ⟨z, by simp [hz], rfl⟩

theorem updateItem_itemsNonneg (s : Store) (itemId : String) (patch : ItemPatch)
    (hs : itemsNonneg s) (hq : 0 ≤ patch.quantity) :
    itemsNonneg (updateItem s itemId patch).2 := by
  unfold updateItem
  cases hu : updateFirst (fun item => item.id == itemId)
      (fun item => applyPatch item patch) s.items with
  | none => exact hs
  | some items2 =>
    intro y hy
    rcases updateFirst_mem hu y hy with h1 | ⟨z, _, rfl⟩
    · exact hs y h1
    · exact hq

/-! Claim theorems. -/

/-- Claim C1: for every item with current quantity Q and every withdrawal
request with quantity q satisfying 0 < q ≤ Q, the withdraw operation
succeeds: afterwards the stored item's quantity equals Q - q, exactly one
Withdrawal record is appended to the withdrawal log, its unitCost equals
the item's unitCost at the time of the withdrawal, and its totalCost
equals q times that unitCost. -/
theorem C1_withdraw_success (s : Store) (d : WithdrawalDraft) (item : Item)
    (wid : String) (now : Int) (hget : getItem s d.itemId = some item)
    (hpos : 0 < d.quantity) (hle : d.quantity ≤ item.quantity) :
    ∃ w : Withdrawal,
      (withdrawItem s d wid now).1 = Except.ok w ∧
      (getItem ((withdrawItem s d wid now).2) d.itemId).map Item.quantity =
        some (item.quantity - d.quantity) ∧
      ((withdrawItem s d wid now).2).withdrawals = s.withdrawals ++ [w] ∧
      w.unitCost = item.unitCost ∧
      w.totalCost = (d.quantity : ℚ) * item.unitCost := by
  obtain ⟨w, h1, h2, h3, h4, h5, h6, h7⟩ := withdrawItem_success s d item wid now hget hle
  exact ⟨w, h1, h6, h5, h3, h4⟩

/-- Witness for C1: the spec's own scenario (quantity 10, withdraw 3). -/
theorem C1_withdraw_success_witness :
    getItem C1store C1draft.itemId = some C1item ∧
      (0 : Int) < C1draft.quantity ∧ C1draft.quantity ≤ C1item.quantity ∧
      (∃ w : Withdrawal,
        (withdrawItem C1store C1draft "w_1" 99).1 = Except.ok w ∧
        (getItem ((withdrawItem C1store C1draft "w_1" 99).2) C1draft.itemId).map Item.quantity =
          some (C1item.quantity - C1draft.quantity) ∧
        ((withdrawItem C1store C1draft "w_1" 99).2).withdrawals = C1store.withdrawals ++ [w] ∧
        w.unitCost = C1item.unitCost ∧
        w.totalCost = (C1draft.quantity : ℚ) * C1item.unitCost) :=
  ⟨rfl, by decide, by decide,
    C1_withdraw_success C1store C1draft C1item "w_1" 99 rfl (by decide) (by decide)⟩

/-- Claim C2: withdrawing more than the available quantity fails with the
insufficient-stock signal carrying the available amount, and leaves the
whole store (in particular the item's quantity and the withdrawal log)
exactly as it was. -/
theorem C2_withdraw_insufficient (s : Store) (d : WithdrawalDraft) (item : Item)
    (wid : String) (now : Int) (hget : getItem s d.itemId = some item)
    (hgt : item.quantity < d.quantity) :
    withdrawItem s d wid now =
      (Except.error (WithdrawError.insufficientStock item.quantity), s) :=
  withdrawItem_insufficient_eq s d item wid now hget hgt

/-- Witness for C2: the spec's own scenario (quantity 7, withdraw 8). -/
theorem C2_withdraw_insufficient_witness :
    getItem C2store C2draft.itemId = some C2item ∧
      C2item.quantity < C2draft.quantity ∧
      withdrawItem C2store C2draft "w_2" 99 =
        (Except.error (WithdrawError.insufficientStock C2item.quantity), C2store) :=
  ⟨rfl, by decide, C2_withdraw_insufficient C2store C2draft C2item "w_2" 99 rfl (by decide)⟩

/-- Counterexample to C3: the code never checks that the quantity is a
positive integer, only that it does not exceed the stock.  A request with
quantity 0 therefore does not signal an error: it succeeds and appends a
Withdrawal record whose quantity is 0 — so the state does change and a
Withdrawal record without positive quantity is created. -/
theorem C3_counterexample :
    ((withdrawItem C3store C3draft "w_3" 99).1).map Withdrawal.quantity =
      Except.ok 0 ∧
    ((withdrawItem C3store C3draft "w_3" 99).2).withdrawals.length = 1 := by
  constructor
  · rfl
  · rfl

/-- Claim C3 (amended): the withdraw operation validates only that the
parsed quantity does not exceed the item's current quantity.  Any integer
quantity q with q ≤ Q — including zero and negative values — passes the
check, mutates the state, and appends exactly one Withdrawal record
carrying that (possibly non-positive) quantity; positivity of the request
is enforced only by the UI layer, not by the ledger operation. -/
theorem C3_no_positivity_validation (s : Store) (d : WithdrawalDraft) (item : Item)
    (wid : String) (now : Int) (hget : getItem s d.itemId = some item)
    (hle : d.quantity ≤ item.quantity) :
    ∃ w : Withdrawal,
      (withdrawItem s d wid now).1 = Except.ok w ∧
      w.quantity = d.quantity ∧
      ((withdrawItem s d wid now).2).withdrawals = s.withdrawals ++ [w] := by
  obtain ⟨w, h1, h2, h3, h4, h5, h6, h7⟩ := withdrawItem_success s d item wid now hget hle
  exact ⟨w, h1, h2, h5⟩

/-- Witness for the amended C3 at a negative quantity. -/
theorem C3_no_positivity_validation_witness :
    getItem C3store C3negDraft.itemId = some C3item ∧
      C3negDraft.quantity ≤ C3item.quantity ∧
      (∃ w : Withdrawal,
        (withdrawItem C3store C3negDraft "w_3n" 99).1 = Except.ok w ∧
        w.quantity = C3negDraft.quantity ∧
        ((withdrawItem C3store C3negDraft "w_3n" 99).2).withdrawals =
          C3store.withdrawals ++ [w]) :=
  ⟨rfl, by decide,
    C3_no_positivity_validation C3store C3negDraft C3item "w_3n" 99 rfl (by decide)⟩

/-- Counterexample to C4: `addItem` stores the parsed quantity without a
sign check, so item creation does not preserve the invariant quantity ≥ 0:
creating an item whose quantity input parses to -5 stores an item with
negative quantity. -/
theorem C4_counterexample :
    ¬ itemsNonneg (addItem C4empty C4draft "item_4" 0).2 := by decide

/-- Claim C4 (amended): `withdrawItem` preserves quantity ≥ 0 on every
stored item and rejects an over-withdrawal atomically with no partial
mutation; `addItem` and `updateItem` preserve the invariant only when the
parsed quantity they are handed is non-negative — they perform no sign
check of their own, so a negative creation/update input is stored as is. -/
theorem C4_quantity_invariant :
    (∀ (s : Store) (d : WithdrawalDraft) (wid : String) (now : Int),
       itemsNonneg s → itemsNonneg (withdrawItem s d wid now).2) ∧
    (∀ (s : Store) (d : WithdrawalDraft) (item : Item) (wid : String) (now : Int),
       getItem s d.itemId = some item → item.quantity < d.quantity →
       (withdrawItem s d wid now).2 = s) ∧
    (∀ (s : Store) (draft : ItemDraft) (id : String) (now : Int),
       itemsNonneg s → 0 ≤ draft.quantity →
       itemsNonneg (addItem s draft id now).2) ∧
    (∀ (s : Store) (itemId : String) (patch : ItemPatch),
       itemsNonneg s → 0 ≤ patch.quantity →
       itemsNonneg (updateItem s itemId patch).2) := by
  refine ⟨?_, ?_, ?_, ?_⟩
  · intro s d wid now hs
    cases hget : getItem s d.itemId with
    | none =>
      rw [withdrawItem_notFound_eq s d wid now hget]
      exact hs
    | some item =>
      by_cases hgt : item.quantity < d.quantity
      · rw [withdrawItem_insufficient_eq s d item wid now hget hgt]
        exact hs
      · have hle : d.quantity ≤ item.quantity := not_lt.mp hgt
        rw [withdrawItem_ok_eq s d item wid now hget hle]
        refine updateItem_itemsNonneg _ item.id (withdrawPatch d item) hs ?_
        simpa [withdrawPatch] using sub_nonneg.mpr hle
  · intro s d item wid now hget hgt
    rw [withdrawItem_insufficient_eq s d item wid now hget hgt]
  · intro s draft id now hs hq
    intro y hy
    rcases List.mem_append.mp hy with h1 | h2
    · exact hs y h1
    · have : y = (addItem s draft id now).1 := by simpa [addItem] using h2
      subst this
      exact hq
  · intro s itemId patch hs hq
    exact updateItem_itemsNonneg s itemId patch hs hq

/-- Witness for the amended C4: a concrete non-negative store stays
non-negative across a withdrawal. -/
theorem C4_quantity_invariant_witness :
    itemsNonneg C4store ∧
      itemsNonneg (withdrawItem C4store { itemId := "item_4b", quantity := 3, notes := none } "w_4" 0).2 :=
  ⟨by decide,
    C4_quantity_invariant.1 C4store { itemId := "item_4b", quantity := 3, notes := none } "w_4" 0
      (by decide)⟩

theorem filter_ne_eq_self {name : String} {l : List String} (h : name ∉ l) :
    l.filter (fun c => !(c == name)) = l := by
  apply List.filter_eq_self.mpr
  intro a ha
  have hne : a ≠ name := fun e => h (e ▸ ha)
  simp [hne]

theorem filter_ne_length_lt {name : String} : ∀ {l : List String}, name ∈ l →
    (l.filter (fun c => !(c == name))).length < l.length := by
  intro l
  induction l with
  | nil => intro h; cases h
  | cons x xs ih =>
    intro h
    rw [List.filter_cons]
    by_cases hx : (!(x == name)) = true
    · have hmem : name ∈ xs := by
        rcases List.mem_cons.mp h with rfl | hxs
        · simp at hx
        · exact hxs
      rw [if_pos hx]
      simpa using Nat.succ_lt_succ (ih hmem)
    · rw [if_neg hx]
      exact Nat.lt_succ_of_le (List.length_filter_le _ _)

theorem deleteCategory_inUse_eq (s : Store) (name : String)
    (h : ∃ item ∈ s.items, item.category = name) :
    deleteCategory s name = (DeleteCategoryResult.inUse, s) := by
  obtain ⟨item, hmem, hcat⟩ := h
  have hany : s.items.any (fun item => item.category == name) = true :=
    List.any_eq_true.mpr ⟨item, hmem, by simp [hcat]⟩
  unfold deleteCategory
  rw [if_pos hany]

theorem deleteCategory_free_any_false (s : Store) (name : String)
    (h : ∀ item ∈ s.items, item.category ≠ name) :
    s.items.any (fun item => item.category == name) = false := by
  by_contra hne
  obtain ⟨item, hmem, hbeq⟩ := List.any_eq_true.mp (eq_true_of_ne_false hne)
  exact h item hmem (by simpa using hbeq)

/-- Claim C5: category deletion is blocked if and only if at least one
item's category equals the given name by exact string match; blocked means
a CategoryInUse refusal returning false with nothing changed; otherwise
the exact-match entries are removed and true is returned, or false is
returned (store untouched) when no exact match existed in the registry. -/
theorem C5_deleteCategory (s : Store) (name : String) :
    ((∃ item ∈ s.items, item.category = name) →
       deleteCategory s name = (DeleteCategoryResult.inUse, s) ∧
       DeleteCategoryResult.inUse.toBool = false) ∧
    ((∀ item ∈ s.items, item.category ≠ name) →
       (name ∈ s.categories →
          deleteCategory s name =
            (DeleteCategoryResult.deleted,
             { s with categories := s.categories.filter (fun c => !(c == name)) }) ∧
          DeleteCategoryResult.deleted.toBool = true) ∧
       (name ∉ s.categories →
          deleteCategory s name = (DeleteCategoryResult.notFound, s) ∧
          DeleteCategoryResult.notFound.toBool = false)) := by
  constructor
  · intro h
    exact ⟨deleteCategory_inUse_eq s name h, rfl⟩
  · intro h
    have hany := deleteCategory_free_any_false s name h
    constructor
    · intro hmem
      have hlt := filter_ne_length_lt (l := s.categories) hmem
      have hbeq : ((s.categories.filter (fun c => !(c == name))).length ==
          s.categories.length) = false := by
        simp [Nat.ne_of_lt hlt]
      refine ⟨?_, rfl⟩
      unfold deleteCategory
      rw [if_neg (by simp [hany]), if_neg (by simp [hbeq])]
    · intro hnmem
      have heq := filter_ne_eq_self (l := s.categories) hnmem
      refine ⟨?_, rfl⟩
      unfold deleteCategory
      rw [if_neg (by simp [hany]), if_pos (by simp [heq])]

/-- Witness for C5: deleting a category used by an item is refused in
place. -/
theorem C5_deleteCategory_witness :
    (∃ item ∈ C5store.items, item.category = "Tools") ∧
      (deleteCategory C5store "Tools" = (DeleteCategoryResult.inUse, C5store) ∧
       DeleteCategoryResult.inUse.toBool = false) :=
  ⟨by decide, (C5_deleteCategory C5store "Tools").1 (by decide)⟩

/-- Claim C10 (implicit): `deleteCategory` performs the in-use check before
the registry existence check, so a name absent from the registry but equal
to some item's category is refused with the CategoryInUse signal (returning
false, registry untouched) rather than reported as not-found. -/
theorem C10_inUse_precedence (s : Store) (name : String)
    (habs : name ∉ s.categories) (huse : ∃ item ∈ s.items, item.category = name) :
    deleteCategory s name = (DeleteCategoryResult.inUse, s) ∧
      DeleteCategoryResult.inUse.toBool = false :=
  ⟨deleteCategory_inUse_eq s name huse, rfl⟩

/-- Witness for C10: a registry-absent but item-used name is refused as
in-use. -/
theorem C10_inUse_precedence_witness :
    ("Ghost" ∉ C10store.categories) ∧
      (∃ item ∈ C10store.items, item.category = "Ghost") ∧
      (deleteCategory C10store "Ghost" = (DeleteCategoryResult.inUse, C10store) ∧
       DeleteCategoryResult.inUse.toBool = false) :=
  ⟨by decide, by decide, C10_inUse_precedence C10store "Ghost" (by decide) (by decide)⟩

theorem ci_not_mem_of_any_false {l : List String} {name : String}
    (h : l.any (fun cat => jsToLower cat == jsToLower name) = false) :
    jsToLower name ∉ l.map jsToLower := by
  intro hmem
  obtain ⟨c, hc, hceq⟩ := List.mem_map.mp hmem
  have htrue : l.any (fun cat => jsToLower cat == jsToLower name) = true :=
    List.any_eq_true.mpr ⟨c, hc, by simp [hceq]⟩
  rw [h] at htrue
  cases htrue

/-- Claim C6: addCategory returns false (appending nothing) exactly when an
existing entry matches the name case-insensitively, and the registry's
case-insensitive distinctness holds of the seed set and is preserved by
both category operations. -/
theorem C6_category_ci_invariant :
    (∀ (s : Store) (name : String),
       (addCategory s name).1 = false ↔
         ∃ c ∈ s.categories, jsToLower c = jsToLower name) ∧
    (∀ (s : Store) (name : String),
       (addCategory s name).1 = false → (addCategory s name).2 = s) ∧
    ciDistinct DEFAULT_CATEGORIES ∧
    (∀ (s : Store) (name : String),
       ciDistinct s.categories → ciDistinct ((addCategory s name).2).categories) ∧
    (∀ (s : Store) (name : String),
       ciDistinct s.categories → ciDistinct ((deleteCategory s name).2).categories) := by
  refine ⟨?_, ?_, by decide, ?_, ?_⟩
  · intro s name
    unfold addCategory
    by_cases hb : s.categories.any (fun cat => jsToLower cat == jsToLower name) = true
    · rw [if_pos hb]
      simp only [true_iff]
      obtain ⟨c, hc, hceq⟩ := List.any_eq_true.mp hb
      exact ⟨c, hc, by simpa using hceq⟩
    · rw [if_neg hb]
      simp only [Bool.true_eq_false, false_iff, not_exists]
      intro c hc
      exact hb (List.any_eq_true.mpr ⟨c, hc.1, by simp [hc.2]⟩)
  · intro s name h
    unfold addCategory at h ⊢
    by_cases hb : s.categories.any (fun cat => jsToLower cat == jsToLower name) = true
    · rw [if_pos hb]
    · rw [if_neg hb] at h
      cases h
  · intro s name hci
    unfold addCategory
    by_cases hb : s.categories.any (fun cat => jsToLower cat == jsToLower name) = true
    · rw [if_pos hb]
      exact hci
    · rw [if_neg hb]
      have hfalse : s.categories.any (fun cat => jsToLower cat == jsToLower name) = false := by
        simpa using hb
      have hnm := ci_not_mem_of_any_false hfalse
      unfold ciDistinct at hci ⊢
      rw [List.map_append]
      rw [List.nodup_append]
      exact ⟨hci, List.nodup_singleton _, by simpa [List.disjoint_singleton] using hnm⟩
  · intro s name hci
    unfold deleteCategory
    by_cases hb : s.items.any (fun item => item.category == name) = true
    · rw [if_pos hb]
      exact hci
    · rw [if_neg hb]
      by_cases hlen : ((s.categories.filter (fun cat => !(cat == name))).length ==
          s.categories.length) = true
      · rw [if_pos hlen]
        exact hci
      · rw [if_neg hlen]
        unfold ciDistinct at hci ⊢
        exact hci.sublist ((List.filter_sublist _).map jsToLower)

/-- Witness for C6: adding a case-insensitive duplicate is refused, and
adding a fresh name keeps the registry case-insensitively distinct. -/
theorem C6_category_ci_invariant_witness :
    (ciDistinct C6store.categories ∧
      ciDistinct ((addCategory C6store "Gear").2).categories) ∧
    ((addCategory C6store "TOOLS").1 = false ↔
      ∃ c ∈ C6store.categories, jsToLower c = jsToLower "TOOLS") :=
  ⟨⟨by decide, C6_category_ci_invariant.2.2.2.1 C6store "Gear" (by decide)⟩,
    C6_category_ci_invariant.1 C6store "TOOLS"⟩

theorem setEndOfDay_day (d2 : Int) :
    setEndOfDay (d2 * msPerDay) = d2 * msPerDay + 86399999 := by
  unfold setEndOfDay
  rw [Int.mul_ediv_cancel _ (by norm_num [msPerDay])]

theorem dateRange_mem_iff (s : Store) (w : Withdrawal) (startDay endDay : Option Int)
    (hw : w ∈ s.withdrawals) :
    w ∈ getWithdrawalsByDateRange s startDay endDay ↔
      (match startDay with | some d2 => d2 * msPerDay | none => epochMs) ≤ w.date ∧
      w.date ≤ (match endDay with | some d2 => d2 * msPerDay | none => farFutureMs)
        + 86399999 := by
  unfold getWithdrawalsByDateRange getAllWithdrawals
  rw [List.mem_filter]
  have hend : setEndOfDay (match endDay with | some d2 => d2 * msPerDay | none => farFutureMs) =
      (match endDay with | some d2 => d2 * msPerDay | none => farFutureMs) + 86399999 := by
    cases endDay with
    | none => decide
    | some d2 => exact setEndOfDay_day d2
  simp only [hend, Bool.and_eq_true, decide_eq_true_eq]
  constructor
  · rintro ⟨_, h⟩
    exact h
  · intro h
    exact ⟨hw, h⟩

/-- Claim C7: the date-range filter over withdrawals is inclusive on both
ends: an absent start bound defaults to the epoch minimum (1970-01-01),
an absent end bound defaults to the far-future sentinel (2100-12-31), and
the end bound is widened to the end of its calendar day (23:59:59.999);
in particular every withdrawal dated exactly at the end date's 00:00:00 is
included by the filter with that end date. -/
theorem C7_dateRange_inclusive :
    (∀ (s : Store) (w : Withdrawal) (startDay endDay : Option Int),
       w ∈ s.withdrawals →
       (w ∈ getWithdrawalsByDateRange s startDay endDay ↔
         (match startDay with | some d2 => d2 * msPerDay | none => epochMs) ≤ w.date ∧
         w.date ≤ (match endDay with | some d2 => d2 * msPerDay | none => farFutureMs)
           + 86399999)) ∧
    (∀ (s : Store) (w : Withdrawal) (endDay : Int),
       w ∈ s.withdrawals → 0 ≤ endDay → w.date = endDay * msPerDay →
       w ∈ getWithdrawalsByDateRange s none (some endDay)) := by
  constructor
  · exact dateRange_mem_iff
  · intro s w endDay hw hd hdate
    refine (dateRange_mem_iff s w none (some endDay) hw).mpr ?_
    constructor
    · rw [hdate]
      exact mul_nonneg hd (by norm_num [msPerDay])
    · rw [hdate]
      exact le_add_of_nonneg_right (by norm_num)

/-- Witness for C7: a withdrawal dated at the end date's 00:00:00 is
included by the same-day end filter. -/
theorem C7_dateRange_inclusive_witness :
    C7w ∈ C7store.withdrawals ∧ (0 : Int) ≤ 10 ∧ C7w.date = 10 * msPerDay ∧
      C7w ∈ getWithdrawalsByDateRange C7store none (some 10) :=
  ⟨by decide, by decide, by decide,
    C7_dateRange_inclusive.2 C7store C7w 10 (by decide) (by decide) (by decide)⟩

/-- Claim C8: for the empty withdrawal set the report summary is the
explicit no-data result (and conversely); the average cost is computed
only for a non-empty set, whose count is positive, so the total cost is
never divided by a zero count. -/
theorem C8_stats_no_data :
    (∀ ws : List Withdrawal, renderStatistics ws = none ↔ ws = []) ∧
    (∀ ws : List Withdrawal, ws ≠ [] →
       ∃ st : Stats, renderStatistics ws = some st ∧
         0 < st.totalWithdrawals ∧
         st.avgCost = st.totalCost / (st.totalWithdrawals : ℚ)) := by
  constructor
  · intro ws
    unfold renderStatistics
    by_cases h : ws.length = 0
    · rw [if_pos h]
      simp [List.length_eq_zero.mp h]
    · rw [if_neg h]
      simp only [reduceCtorEq, false_iff]
      intro heq
      exact h (by simp [heq])
  · intro ws hne
    have hlen : ¬ ws.length = 0 := fun h => hne (List.length_eq_zero.mp h)
    unfold renderStatistics
    rw [if_neg hlen]
    exact ⟨_, rfl, Nat.pos_of_ne_zero hlen, rfl⟩

/-- Witness for C8: the empty set gives the no-data result; a one-element
set gives a summary with positive count. -/
theorem C8_stats_no_data_witness :
    renderStatistics ([] : List Withdrawal) = none ∧
      [C8w] ≠ ([] : List Withdrawal) ∧
      (∃ st : Stats, renderStatistics [C8w] = some st ∧
        0 < st.totalWithdrawals ∧
        st.avgCost = st.totalCost / (st.totalWithdrawals : ℚ)) :=
  ⟨(C8_stats_no_data.1 []).mpr rfl, by decide, C8_stats_no_data.2 [C8w] (by decide)⟩

/-- Claim C9: updateItem merges the patch fields over the existing record:
fields not present in the patch keep their previous values — in particular
id and dateAdded, which no in-app patch carries, stay unchanged — while
quantity and unitCost take the values re-parsed from the patch; when the
given id matches no item the call returns false and changes nothing. -/
theorem C9_updateItem_merge (s : Store) (itemId : String) (patch : ItemPatch)
    (hid : patch.id = none) (hdate : patch.dateAdded = none) :
    (∀ item : Item, getItem s itemId = some item →
       (updateItem s itemId patch).1 = true ∧
       ∃ item2 : Item,
         getItem ((updateItem s itemId patch).2) itemId = some item2 ∧
         item2.id = item.id ∧
         item2.dateAdded = item.dateAdded ∧
         item2.name = patch.name.getD item.name ∧
         item2.category = patch.category.getD item.category ∧
         item2.description = patch.description.getD item.description ∧
         item2.quantity = patch.quantity ∧
         item2.unitCost = patch.unitCost) ∧
    (getItem s itemId = none → updateItem s itemId patch = (false, s)) := by
  constructor
  · intro item hget
    have hpid : (applyPatch item patch).id = itemId := by
      have hi : item.id = itemId := getItem_id_eq s itemId item hget
      simp [applyPatch, hid, hi]
    obtain ⟨h1, h2⟩ := getItem_updateItem_self s itemId patch item hget hpid
    refine ⟨congrArg Prod.fst h1, applyPatch item patch, h2, ?_, ?_, rfl, rfl, rfl, rfl, rfl⟩
    · simp [applyPatch, hid]
    · simp [applyPatch, hdate]
  · intro hnone
    unfold updateItem
    rw [updateFirst_eq_none hnone]

/-- Witness for C9 at a concrete store and patch. -/
theorem C9_updateItem_merge_witness :
    C9patch.id = none ∧ C9patch.dateAdded = none ∧
      getItem C9store "item_9" = some C9item ∧
      ((updateItem C9store "item_9" C9patch).1 = true ∧
        ∃ item2 : Item,
          getItem ((updateItem C9store "item_9" C9patch).2) "item_9" = some item2 ∧
          item2.id = C9item.id ∧
          item2.dateAdded = C9item.dateAdded ∧
          item2.name = C9patch.name.getD C9item.name ∧
          item2.category = C9patch.category.getD C9item.category ∧
          item2.description = C9patch.description.getD C9item.description ∧
          item2.quantity = C9patch.quantity ∧
          item2.unitCost = C9patch.unitCost) :=
  ⟨rfl, rfl, rfl,
    (C9_updateItem_merge C9store "item_9" C9patch rfl rfl).1 C9item rfl⟩

end Inventory
